import Mathlib

/-!
# libavionics/luna.cpp: the Lua-facing interpolator registry

A shallow embedding of the interpolator part of `luna.cpp`:

* `loadLuaTable`          (lines 137-158)
* `configureInterpolator` (lines 160-177)
* `luaCreateInterpolator` (lines 179-270), registered as `newCPPInterpolator`
* `luaInterpolate`        (lines 272-310), registered as `interpolateCPP`

Conventions of the embedding.

* A C `double` (a Lua number) is an exact rational.  `luna.cpp` does no
  arithmetic on doubles: it only moves them around, truncates them to `int`
  and converts small integers back.
* A C `int` / `std::size_t` is an unbounded `Int` / `Nat`.  A conversion
  `double -> int` outside the `int` range is undefined in C and is taken here
  as the exact truncation.
* The static vector `Interpolators` is a field of the explicit state
  `LunaState`, which is passed in and out of every operation.
* The class `Interpolator<double>` and its five subclasses come from
  `interpolator.h`; luna.cpp only calls their methods.  The functions of
  luna.cpp are therefore embedded over an arbitrary implementation of that
  class, `InterpolatorClass`.  `specClass` is one implementation, written
  from the specification of the interpolator.
* A method of the class that fails ends the call that made it: luna.cpp has
  no handler and tests no result of `addFunction`, so the failure leaves
  `configureInterpolator` and `luaCreateInterpolator` at that point.
* Lua strings, functions and userdata are not modelled.
-/

namespace Sasl

/-! ## Lua values -/

/-- Lua values that are not tables: `nil`, booleans and numbers. -/
inductive LuaScalar where
  | nil
  | boolean (b : Bool)
  | number (x : ℚ)
  deriving DecidableEq, Repr

/-- A Lua table, as the sequence of key/value pairs in the order in which
`lua_next` visits them. -/
abbrev LuaTable := List (LuaScalar × LuaScalar)

/-- A Lua value on the stack: a scalar or a table. -/
inductive LuaValue where
  | scalar (v : LuaScalar)
  | table (t : LuaTable)
  deriving DecidableEq, Repr

/-- Lua API `lua_tonumber`: the number itself for a number, and `0` for every
value that is not convertible to a number (nil, booleans, tables). -/
def lua_tonumber : LuaValue → ℚ
  | .scalar (.number x) => x
  | _ => 0

/-- Lua API `lua_isnumber`. -/
def lua_isnumber : LuaValue → Bool
  | .scalar (.number _) => true
  | _ => false

/-- Lua API `lua_istable`. -/
def lua_istable : LuaValue → Bool
  | .table _ => true
  | _ => false

/-- The entries that `lua_next` iterates over; luna.cpp only iterates over
values it has checked or assumes to be tables. -/
def tableEntries : LuaValue → LuaTable
  | .table t => t
  | _ => []

/-- C conversion `(int)x` of a double: truncation toward zero. -/
def doubleToInt (x : ℚ) : Int := Int.tdiv x.num x.den

/-- C conversion `(bool)x` of a double: true exactly when `x` is not zero. -/
def doubleToBool (x : ℚ) : Bool := decide (x ≠ 0)

/-- The method `std::vector::resize(n, fill)`. -/
def vectorResize (values : List ℚ) (n : Nat) (fill : ℚ) : List ℚ :=
  values.take n ++ List.replicate (n - values.length) fill

/-! ## loadLuaTable -/

/-- One iteration of the `while (lua_next ...)` loop of `loadLuaTable`
(lines 145-152) on the key/value pair `kv`. -/
def loadEntry (values : List ℚ) (kv : LuaScalar × LuaScalar) : List ℚ :=
  let index : Int := doubleToInt (lua_tonumber (.scalar kv.1))
  let value : ℚ := lua_tonumber (.scalar kv.2)
  if 0 < index then
    let index := index - 1
    let values :=
      if (values.length : Int) ≤ index then vectorResize values (index.toNat + 1) 0
      else values
    values.set index.toNat value
  else
    values

/-- The function `loadLuaTable` (lines 137-158): starts from the empty vector
and runs the loop body over the entries in iteration order. -/
def loadLuaTable (t : LuaTable) : List ℚ :=
  t.foldl loadEntry []

/-! ## The interpolator class and the state of the module -/

/-- Modelled from the spec: the error taxonomy of the interpolator
(`interpolator.h` is not under src/); the errors with which a method of the
class can fail. -/
inductive InterpolatorError where
  | InvalidGridError
  | UnsupportedDimensionError
  | DimensionMismatchError
  | NotFound
  | NotReadyError
  deriving DecidableEq, Repr

/-- The interface of `Interpolator<double>` that luna.cpp uses.  `I` is the
state of one object.  A method that mutates the object is a function to the
new object state. -/
structure InterpolatorClass (I : Type) where
  /-- The expression `new InterpolatorND<double>` for `N = dimension`; `serial`
  is the number of interpolator objects constructed before this one. -/
  construct : (dimension : Nat) → (serial : Nat) → I
  /-- Method `setGrid(values)`. -/
  setGrid : I → List ℚ → I
  /-- Method `setGridDelimiters(delimiters)`. -/
  setGridDelimiters : I → List Nat → I
  /-- Method `addFunction(values)`: the object after the call, or the error
  with which the call fails. -/
  addFunction : I → List ℚ → Except InterpolatorError I
  /-- Method `validate()`: its boolean result and the object after the call. -/
  validate : I → Bool × I
  /-- Method `calculateGradients()`. -/
  calculateGradients : I → I
  /-- Method `getID()`. -/
  getID : I → Int
  /-- Method `interpolate(point, closedRange)`. -/
  interpolate : I → List ℚ → Bool → List ℚ

/-- The mutable state behind luna.cpp: the static vector `Interpolators`
(line 19) and the number of interpolator objects constructed so far. -/
structure LunaState (I : Type) where
  Interpolators : List I
  constructed : Nat

/-- State of a fresh process: nothing registered, nothing constructed. -/
def LunaState.initial {I : Type} : LunaState I := ⟨[], 0⟩

/-! ## configureInterpolator -/

/-- The loop of lines 166-168: `addFunction` is called on the arrays in
order; a call that fails ends the loop, and the arrays after it are not
added. -/
def addFunctionLoop {I : Type} (K : InterpolatorClass I) :
    I → List (List ℚ) → Except InterpolatorError I
  | obj, [] => .ok obj
  | obj, values :: rest =>
    match K.addFunction obj values with
    | .ok obj => addFunctionLoop K obj rest
    | .error e => .error e

/-- The function `configureInterpolator` (lines 160-177).  When it returns, it
gives the boolean result, the object as the call leaves it and the new module
state; when an `addFunction` fails, it ends with that error. -/
def configureInterpolator {I : Type} (K : InterpolatorClass I) (s : LunaState I)
    (inInterpolator : I) (inValues : List ℚ) (inDelimiters : List Nat)
    (inFunction : List (List ℚ)) : Except InterpolatorError (Bool × I × LunaState I) :=
  let obj := K.setGrid inInterpolator inValues
  let obj := K.setGridDelimiters obj inDelimiters
  match addFunctionLoop K obj inFunction with
  | .error e => .error e
  | .ok obj =>
    match K.validate obj with
    | (true, obj) =>
      let obj := K.calculateGradients obj
      .ok (true, obj, { s with Interpolators := s.Interpolators ++ [obj] })
    | (false, obj) =>
      .ok (false, obj, s)

/-! ## luaCreateInterpolator -/

/-- Outcome of `luaCreateInterpolator`: the values returned to Lua (the
C function returns their count), the error with which the call ended if a
method of the class failed, and the module state. -/
structure CreateResult (I : Type) where
  results : List LuaValue
  raised : Option InterpolatorError
  state : LunaState I

/-- The first loop of `luaCreateInterpolator` (lines 184-197) from group `i`
on: `none` when a group loads as an empty vector (the early return of line
191), otherwise the flattened grid and the delimiters. -/
def loadGrid : List LuaTable → List ℚ → List Nat → Option (List ℚ × List Nat)
  | [], gridValues, gridDelimiters => some (gridValues, gridDelimiters)
  | group :: rest, gridValues, gridDelimiters =>
    let gridPart := loadLuaTable group
    if gridPart.length = 0 then none
    else loadGrid rest (gridValues ++ gridPart) (gridDelimiters ++ [gridPart.length])

/-- One `case N:` block of the switch (lines 211-260): construct the
N-dimensional object, configure it, and return its ID on success.  A failure
inside `configureInterpolator` ends the call with no value returned; the
object has been constructed and nothing has been registered. -/
def createCase {I : Type} (K : InterpolatorClass I) (s : LunaState I) (dimension : Nat)
    (gridValues : List ℚ) (gridDelimiters : List Nat) (function : List (List ℚ)) :
    CreateResult I :=
  let interpolator := K.construct dimension s.constructed
  let s := { s with constructed := s.constructed + 1 }
  match configureInterpolator K s interpolator gridValues gridDelimiters function with
  | .ok (true, obj, s) => ⟨[.scalar (.number (K.getID obj))], none, s⟩
  | .ok (false, _, s) => ⟨[], none, s⟩
  | .error e => ⟨[], some e, s⟩

/-- The function `luaCreateInterpolator` (lines 179-270).  `grid` holds the
elements `1 .. lua_objlen` of the first argument and `functions` those of the
second.  Every failure path pushes nil and returns 0, so that Lua receives no
result. -/
def luaCreateInterpolator {I : Type} (K : InterpolatorClass I) (s : LunaState I)
    (grid : List LuaTable) (functions : List LuaTable) : CreateResult I :=
  match loadGrid grid [] [] with
  | none => ⟨[], none, s⟩
  | some (gridValues, gridDelimiters) =>
    let function := functions.map loadLuaTable
    match gridDelimiters.length with
    | 1 => createCase K s 1 gridValues gridDelimiters function
    | 2 => createCase K s 2 gridValues gridDelimiters function
    | 3 => createCase K s 3 gridValues gridDelimiters function
    | 4 => createCase K s 4 gridValues gridDelimiters function
    | 5 => createCase K s 5 gridValues gridDelimiters function
    | _ => ⟨[], none, s⟩

/-! ## luaInterpolate -/

/-- One call of the method `interpolate` made by luna.cpp. -/
structure EvalCall (I : Type) where
  receiver : I
  point : List ℚ
  closedRange : Bool
  deriving DecidableEq

/-- Outcome of `luaInterpolate`: the values returned to Lua, the calls of the
method `interpolate` it made, and the module state. -/
structure InterpolateResult (I : Type) where
  results : List LuaValue
  calls : List (EvalCall I)
  state : LunaState I

/-- The table built by lines 297-302: key `i + 1` holds `i_point[i]`. -/
def resultTable (i_point : List ℚ) : LuaTable :=
  (List.range i_point.length).map fun (i : Nat) =>
    (LuaScalar.number ((i + 1 : Nat) : ℚ), LuaScalar.number (i_point.getD i 0))

/-- The loop of lines 293-306 over the registered objects from `it` on. -/
def interpolateLoop {I : Type} (K : InterpolatorClass I) (s : LunaState I)
    (interpolatorID : Int) (point : List ℚ) (closedRange : Bool) :
    List I → InterpolateResult I
  | [] => ⟨[.scalar .nil], [], s⟩
  | it :: rest =>
    if K.getID it = interpolatorID then
      let i_point := K.interpolate it point closedRange
      ⟨[.table (resultTable i_point)], [⟨it, point, closedRange⟩], s⟩
    else
      interpolateLoop K s interpolatorID point closedRange rest

/-- Lines 279-285: `closedRange` starts as `false` and, when there is a third
argument, becomes `(bool)lua_tonumber(L, 3)`. -/
def closedRangeFlag : Option LuaValue → Bool
  | some v => doubleToBool (lua_tonumber v)
  | none => false

/-- The function `luaInterpolate` (lines 272-310).  `arg1` and `arg2` are the
first two arguments; `arg3` is the third one when `lua_gettop(L) == 3`.  With
the `stack_shift` of lines 280-284 the `lua_next` of `loadLuaTable` runs over
the second argument itself, which gives `point`. -/
def luaInterpolate {I : Type} (K : InterpolatorClass I) (s : LunaState I)
    (arg1 arg2 : LuaValue) (arg3 : Option LuaValue) : InterpolateResult I :=
  if !(lua_isnumber arg1) || !(lua_istable arg2) then
    ⟨[.scalar .nil], [], s⟩
  else
    let closedRange : Bool := closedRangeFlag arg3
    let interpolatorID : Int := doubleToInt (lua_tonumber arg1)
    let point := loadLuaTable (tableEntries arg2)
    interpolateLoop K s interpolatorID point closedRange s.Interpolators

/-! ## Sequences of calls -/

/-- A call from Lua into the module. -/
inductive Call where
  | create (grid functions : List LuaTable)
  | interpolate (arg1 arg2 : LuaValue) (arg3 : Option LuaValue)

/-- The effect of one call on the module state. -/
def step {I : Type} (K : InterpolatorClass I) (s : LunaState I) : Call → LunaState I
  | .create grid functions => (luaCreateInterpolator K s grid functions).state
  | .interpolate arg1 arg2 arg3 => (luaInterpolate K s arg1 arg2 arg3).state

/-- The state after a sequence of calls, with no teardown in between. -/
def run {I : Type} (K : InterpolatorClass I) (s : LunaState I) (calls : List Call) :
    LunaState I :=
  calls.foldl (step K) s

/-- An object is ready when it is what `calculateGradients()` leaves of an
object on which `validate()` has returned true. -/
def GradientsReady {I : Type} (K : InterpolatorClass I) (it : I) : Prop :=
  ∃ c : I, (K.validate c).1 = true ∧ it = K.calculateGradients (K.validate c).2

/-! ## An implementation of the interpolator class, from the specification -/

/-- Modelled from the spec: the lifecycle states of an interpolator,
Constructing, Validated, GradientsReady. -/
inductive Stage where
  | Constructing
  | Validated
  | GradientsReady
  deriving DecidableEq, Repr

/-- Modelled from the spec: the data of one `Interpolator` object (the class
is not under src/): its handle, the dimension of the specialised variant, the
flattened grid with its delimiters, the function arrays in registration order
and the lifecycle state.  The gradient cache holds derived floating-point
slopes and is represented by the lifecycle state only. -/
structure SpecInterpolator where
  ID : Int
  dimension : Nat
  grid : List ℚ
  gridDelimiters : List Nat
  function : List (List ℚ)
  stage : Stage
  deriving DecidableEq, Repr

namespace SpecInterpolator

/-- Modelled from the spec: the constructor (not under src/).  Handles are
monotonically increasing integers, never reused: the object constructed after
`serial` others gets the handle `serial + 1`. -/
def construct (dimension serial : Nat) : SpecInterpolator :=
  { ID := (serial : Int) + 1, dimension := dimension, grid := [], gridDelimiters := [],
    function := [], stage := .Constructing }

/-- Modelled from the spec: `setGrid` (not under src/) stores the flattened
breakpoints. -/
def setGrid (it : SpecInterpolator) (values : List ℚ) : SpecInterpolator :=
  { it with grid := values }

/-- Modelled from the spec: `setGridDelimiters` (not under src/) stores the
number of breakpoints of each dimension. -/
def setGridDelimiters (it : SpecInterpolator) (delimiters : List Nat) : SpecInterpolator :=
  { it with gridDelimiters := delimiters }

/-- The number of grid cells: the product of all dimension sizes. -/
def cellCount (it : SpecInterpolator) : Nat :=
  it.gridDelimiters.foldl (· * ·) 1

/-- Modelled from the spec: `addFunction(values)` (not under src/) appends a
sampled array; it requires `len(values) == product(dimension sizes)` and fails
with `DimensionMismatchError` if not, retaining no partial state; the failure
aborts the construction. -/
def addFunction (it : SpecInterpolator) (values : List ℚ) :
    Except InterpolatorError SpecInterpolator :=
  if values.length = it.cellCount then
    .ok { it with function := it.function ++ [values] }
  else
    .error .DimensionMismatchError

/-- Splits a flattened grid back into the per-dimension sequences. -/
def splitGrid : List ℚ → List Nat → List (List ℚ)
  | _, [] => []
  | values, n :: rest => values.take n :: splitGrid (values.drop n) rest

/-- A sequence of doubles is strictly increasing. -/
def strictlyIncreasing : List ℚ → Bool
  | [] => true
  | [_] => true
  | x :: y :: rest => decide (x < y) && strictlyIncreasing (y :: rest)

/-- Modelled from the spec: the check of `validate()` (not under src/): the
delimiters add up to the flattened length, the dimension count is in 1..5,
every breakpoint sequence is strictly increasing with length at least 2, and
every function array has one sample per grid cell. -/
def isValid (it : SpecInterpolator) : Bool :=
  decide (it.gridDelimiters.foldl (· + ·) 0 = it.grid.length)
    && decide (1 ≤ it.gridDelimiters.length ∧ it.gridDelimiters.length ≤ 5)
    && (splitGrid it.grid it.gridDelimiters).all
        (fun part => decide (2 ≤ part.length) && strictlyIncreasing part)
    && it.function.all (fun values => decide (values.length = it.cellCount))

/-- Modelled from the spec: `validate()` (not under src/) moves a consistent
object from Constructing to Validated. -/
def validate (it : SpecInterpolator) : Bool × SpecInterpolator :=
  if it.isValid then (true, { it with stage := .Validated }) else (false, it)

/-- Modelled from the spec: `calculateGradients()` (not under src/) fills the
gradient cache and leaves the object GradientsReady. -/
def calculateGradients (it : SpecInterpolator) : SpecInterpolator :=
  { it with stage := .GradientsReady }

end SpecInterpolator

/-- Modelled from the spec: the class `Interpolator` (not under src/) as luna.cpp
sees it.  The multilinear evaluator is floating-point numerics and is left as
the parameter `evaluator`. -/
def specClass (evaluator : SpecInterpolator → List ℚ → Bool → List ℚ) :
    InterpolatorClass SpecInterpolator where
  construct := SpecInterpolator.construct
  setGrid := SpecInterpolator.setGrid
  setGridDelimiters := SpecInterpolator.setGridDelimiters
  addFunction := SpecInterpolator.addFunction
  validate := SpecInterpolator.validate
  calculateGradients := SpecInterpolator.calculateGradients
  getID := fun it => it.ID
  interpolate := evaluator

/-- A simple evaluator for the examples: one value per function, the sample
at the first grid node when the range is closed and the sample at the last
one otherwise. -/
def cornerEvaluator (it : SpecInterpolator) (_point : List ℚ) (closedRange : Bool) : List ℚ :=
  it.function.map fun values => if closedRange then values.headD 0 else values.getLastD 0

/-- The Lua sequence `{ x1, x2, ... }`, visited in index order. -/
def luaSequence (xs : List ℚ) : LuaTable :=
  (List.range xs.length).map fun (i : Nat) =>
    (LuaScalar.number ((i + 1 : Nat) : ℚ), LuaScalar.number (xs.getD i 0))

/-! ## Auxiliary definitions for `loadLuaTable` -/

/-- The value of the variable `index` of `loadLuaTable` right after line 145. -/
def entryIndex (kv : LuaScalar × LuaScalar) : Int :=
  doubleToInt (lua_tonumber (.scalar kv.1))

/-- The value of the variable `value` of `loadLuaTable` (line 146). -/
def entryValue (kv : LuaScalar × LuaScalar) : ℚ :=
  lua_tonumber (.scalar kv.2)

/-- Lines 149-151: grow the vector if needed and store at the 0-based `m`. -/
def storeAt (values : List ℚ) (m : Nat) (value : ℚ) : List ℚ :=
  (if values.length ≤ m then vectorResize values (m + 1) 0 else values).set m value

/-! ## Auxiliary definitions for the construction -/

/-- The number of grid cells of the dimension groups: the product of the
sizes of the loaded groups. -/
def gridCells (grid : List LuaTable) : Nat :=
  (grid.map fun g => (loadLuaTable g).length).foldl (· * ·) 1

/-- The object of the class of the specification right before the loop of
lines 166-168: constructed (line 212 and its siblings) and given the grid and
the delimiters (lines 163-164). -/
def gridObject (s : LunaState SpecInterpolator) (grid : List LuaTable) : SpecInterpolator :=
  SpecInterpolator.setGridDelimiters
    (SpecInterpolator.setGrid (SpecInterpolator.construct grid.length s.constructed)
      (grid.map loadLuaTable).flatten)
    (grid.map fun g => (loadLuaTable g).length)

/-! ## Example data -/

/-- The class used in the examples. -/
def exampleClass : InterpolatorClass SpecInterpolator := specClass cornerEvaluator

/-- A one-dimensional interpolator on the grid 0, 1 with samples 4, 5. -/
def exampleCreate1 : CreateResult SpecInterpolator :=
  luaCreateInterpolator exampleClass LunaState.initial
    [luaSequence [0, 1]] [luaSequence [4, 5]]

/-- A second, two-dimensional interpolator on the grid 0, 1, 2 by 0, 10 with
the samples of `d1 + d2`. -/
def exampleCreate2 : CreateResult SpecInterpolator :=
  luaCreateInterpolator exampleClass exampleCreate1.state
    [luaSequence [0, 1, 2], luaSequence [0, 10]] [luaSequence [0, 10, 1, 11, 2, 12]]

/-- The state with the two example interpolators registered under 1 and 2. -/
def exampleState : LunaState SpecInterpolator := exampleCreate2.state

/-- The first example interpolator as registered. -/
def exampleA : SpecInterpolator :=
  { ID := 1, dimension := 1, grid := [0, 1], gridDelimiters := [2],
    function := [[4, 5]], stage := .GradientsReady }

/-- The second example interpolator as registered. -/
def exampleB : SpecInterpolator :=
  { ID := 2, dimension := 2, grid := [0, 1, 2, 0, 10], gridDelimiters := [3, 2],
    function := [[0, 10, 1, 11, 2, 12]], stage := .GradientsReady }

theorem doubleToInt_intCast (h : Int) : doubleToInt (h : ℚ) = h := by
  simp [doubleToInt]

theorem doubleToInt_natCast (n : Nat) : doubleToInt (n : ℚ) = n := by
  simp [doubleToInt]

/-- One `case N:` block when an `addFunction` fails. -/
theorem createCase_error {I : Type} (K : InterpolatorClass I) (s : LunaState I)
    (dimension : Nat) (gridValues : List ℚ) (gridDelimiters : List Nat)
    (function : List (List ℚ)) (e : InterpolatorError)
    (hloop : addFunctionLoop K
      (K.setGridDelimiters (K.setGrid (K.construct dimension s.constructed) gridValues)
        gridDelimiters) function = .error e) :
    createCase K s dimension gridValues gridDelimiters function =
      ⟨[], some e, { Interpolators := s.Interpolators, constructed := s.constructed + 1 }⟩ := by
  unfold createCase configureInterpolator
  simp only [hloop]

/-- The two ways out of one `case N:` block when every `addFunction`
succeeds and leaves the object `obj`. -/
theorem createCase_ok {I : Type} (K : InterpolatorClass I) (s : LunaState I) (dimension : Nat)
    (gridValues : List ℚ) (gridDelimiters : List Nat) (function : List (List ℚ)) (obj : I)
    (hloop : addFunctionLoop K
      (K.setGridDelimiters (K.setGrid (K.construct dimension s.constructed) gridValues)
        gridDelimiters) function = .ok obj) :
    createCase K s dimension gridValues gridDelimiters function =
      if (K.validate obj).1 = true then
        ⟨[.scalar (.number (K.getID (K.calculateGradients (K.validate obj).2)))], none,
          { Interpolators := s.Interpolators ++ [K.calculateGradients (K.validate obj).2],
            constructed := s.constructed + 1 }⟩
      else
        ⟨[], none, { Interpolators := s.Interpolators, constructed := s.constructed + 1 }⟩ := by
  unfold createCase configureInterpolator
  simp only [hloop]
  rcases hv : K.validate obj with ⟨b, o⟩
  cases b <;> simp

/-- The loop over the grid groups adds one delimiter per group. -/
theorem loadGrid_length (grid : List LuaTable) :
    ∀ (vs : List ℚ) (ds : List Nat) (gridValues : List ℚ) (gridDelimiters : List Nat),
      loadGrid grid vs ds = some (gridValues, gridDelimiters) →
      gridDelimiters.length = ds.length + grid.length := by
  induction grid with
  | nil =>
    intro vs ds gv gd h
    simp [loadGrid] at h
    simp [h.2.symm]
  | cons g rest ih =>
    intro vs ds gv gd h
    simp only [loadGrid] at h
    split at h
    · simp at h
    · have := ih _ _ _ _ h
      simp at this ⊢
      omega

/-- The switch of `luaCreateInterpolator` once the grid is loaded. -/
theorem luaCreateInterpolator_eq {I : Type} (K : InterpolatorClass I) (s : LunaState I)
    (grid functions : List LuaTable) (gridValues : List ℚ) (gridDelimiters : List Nat)
    (hgrid : loadGrid grid [] [] = some (gridValues, gridDelimiters)) :
    luaCreateInterpolator K s grid functions =
      if 1 ≤ grid.length ∧ grid.length ≤ 5 then
        createCase K s grid.length gridValues gridDelimiters (functions.map loadLuaTable)
      else ⟨[], none, s⟩ := by
  have hlen := loadGrid_length grid [] [] gridValues gridDelimiters hgrid
  simp only [List.length_nil, Nat.zero_add] at hlen
  unfold luaCreateInterpolator
  rw [hgrid]
  simp only [hlen]
  rcases hn : grid.length with _ | _ | _ | _ | _ | _ | n <;> simp

/-- Calling `luaCreateInterpolator` either leaves the registry alone or
appends one object. -/
theorem luaCreateInterpolator_cases {I : Type} (K : InterpolatorClass I) (s : LunaState I)
    (grid functions : List LuaTable) :
    (∃ it : I, GradientsReady K it ∧
        (luaCreateInterpolator K s grid functions).results =
          [.scalar (.number (K.getID it))] ∧
        (luaCreateInterpolator K s grid functions).state =
          { Interpolators := s.Interpolators ++ [it], constructed := s.constructed + 1 }) ∨
    ((luaCreateInterpolator K s grid functions).results = [] ∧
      (luaCreateInterpolator K s grid functions).state.Interpolators = s.Interpolators) := by
  rcases hgrid : loadGrid grid [] [] with _ | ⟨gridValues, gridDelimiters⟩
  · right
    simp [luaCreateInterpolator, hgrid]
  · rw [luaCreateInterpolator_eq K s grid functions gridValues gridDelimiters hgrid]
    by_cases hn : 1 ≤ grid.length ∧ grid.length ≤ 5
    · rw [if_pos hn]
      rcases hloop : addFunctionLoop K
          (K.setGridDelimiters (K.setGrid (K.construct grid.length s.constructed) gridValues)
            gridDelimiters) (functions.map loadLuaTable) with e | obj
      · rw [createCase_error K s _ _ _ _ e hloop]
        right
        exact ⟨rfl, rfl⟩
      · rw [createCase_ok K s _ _ _ _ obj hloop]
        split
        · next hv =>
          left
          exact ⟨_, ⟨_, hv, rfl⟩, rfl, rfl⟩
        · right
          exact ⟨rfl, rfl⟩
    · rw [if_neg hn]
      right
      exact ⟨rfl, rfl⟩

theorem interpolateLoop_state {I : Type} (K : InterpolatorClass I) (s : LunaState I)
    (interpolatorID : Int) (point : List ℚ) (closedRange : Bool) (its : List I) :
    (interpolateLoop K s interpolatorID point closedRange its).state = s := by
  induction its with
  | nil => rfl
  | cons it rest ih =>
    simp only [interpolateLoop]
    split
    · rfl
    · exact ih

theorem luaInterpolate_state {I : Type} (K : InterpolatorClass I) (s : LunaState I)
    (arg1 arg2 : LuaValue) (arg3 : Option LuaValue) :
    (luaInterpolate K s arg1 arg2 arg3).state = s := by
  unfold luaInterpolate
  split
  · rfl
  · exact interpolateLoop_state _ _ _ _ _ _

/-- The loop finds nothing when no registered object has the ID. -/
theorem interpolateLoop_not_found {I : Type} (K : InterpolatorClass I) (s : LunaState I)
    (interpolatorID : Int) (point : List ℚ) (closedRange : Bool) (its : List I)
    (h : ∀ it ∈ its, K.getID it ≠ interpolatorID) :
    interpolateLoop K s interpolatorID point closedRange its = ⟨[.scalar .nil], [], s⟩ := by
  induction its with
  | nil => rfl
  | cons it rest ih =>
    simp only [interpolateLoop]
    rw [if_neg (h it (List.mem_cons_self _ _))]
    exact ih fun x hx => h x (List.mem_cons_of_mem _ hx)

/-- The loop stops at the first registered object that has the ID. -/
theorem interpolateLoop_found {I : Type} (K : InterpolatorClass I) (s : LunaState I)
    (interpolatorID : Int) (point : List ℚ) (closedRange : Bool)
    (before : List I) (X : I) (after : List I)
    (hbefore : ∀ it ∈ before, K.getID it ≠ interpolatorID)
    (hX : K.getID X = interpolatorID) :
    interpolateLoop K s interpolatorID point closedRange (before ++ X :: after) =
      ⟨[.table (resultTable (K.interpolate X point closedRange))],
        [⟨X, point, closedRange⟩], s⟩ := by
  induction before with
  | nil => simp [interpolateLoop, hX]
  | cons it rest ih =>
    simp only [List.cons_append, interpolateLoop]
    rw [if_neg (hbefore it (List.mem_cons_self _ _))]
    exact ih fun x hx => hbefore x (List.mem_cons_of_mem _ hx)

/-- A list with an element of a given ID splits at the first such element. -/
theorem exists_first_with_ID {I : Type} (K : InterpolatorClass I) (h : Int) (its : List I)
    (hex : ∃ it ∈ its, K.getID it = h) :
    ∃ (before : List I) (X : I) (after : List I),
      its = before ++ X :: after ∧ (∀ it ∈ before, K.getID it ≠ h) ∧ K.getID X = h := by
  induction its with
  | nil => simp at hex
  | cons a rest ih =>
    by_cases ha : K.getID a = h
    · exact ⟨[], a, rest, rfl, by simp, ha⟩
    · have hex2 : ∃ it ∈ rest, K.getID it = h := by
        obtain ⟨it, hit, hid⟩ := hex
        rcases List.mem_cons.mp hit with rfl | hmem
        · exact absurd hid ha
        · exact ⟨it, hmem, hid⟩
      obtain ⟨before, X, after, hsplit, hb, hX⟩ := ih hex2
      refine ⟨a :: before, X, after, by simp [hsplit], ?_, hX⟩
      intro it hit
      rcases List.mem_cons.mp hit with rfl | hmem
      · exact ha
      · exact hb it hmem

theorem exampleState_Interpolators : exampleState.Interpolators = [exampleA, exampleB] := by
  decide

/-- Every evaluator call of the loop is on one of the objects it runs over. -/
theorem interpolateLoop_calls_mem {I : Type} (K : InterpolatorClass I) (s : LunaState I)
    (interpolatorID : Int) (point : List ℚ) (closedRange : Bool) (its : List I) :
    ∀ c ∈ (interpolateLoop K s interpolatorID point closedRange its).calls,
      c.receiver ∈ its := by
  induction its with
  | nil => intro c hc; simp [interpolateLoop] at hc
  | cons it rest ih =>
    intro c hc
    simp only [interpolateLoop] at hc
    split at hc
    · simp at hc
      simp [hc]
    · exact List.mem_cons_of_mem _ (ih c hc)

/-- Every evaluator call of `luaInterpolate` is on a registered object. -/
theorem luaInterpolate_calls_mem {I : Type} (K : InterpolatorClass I) (s : LunaState I)
    (arg1 arg2 : LuaValue) (arg3 : Option LuaValue) :
    ∀ c ∈ (luaInterpolate K s arg1 arg2 arg3).calls, c.receiver ∈ s.Interpolators := by
  unfold luaInterpolate
  split
  · intro c hc; simp at hc
  · exact interpolateLoop_calls_mem _ _ _ _ _ _

/-- A step only appends to the registry, and what it appends is ready. -/
theorem step_appends {I : Type} (K : InterpolatorClass I) (s : LunaState I) (call : Call) :
    ∃ added : List I, (step K s call).Interpolators = s.Interpolators ++ added ∧
      added.length ≤ 1 ∧ ∀ it ∈ added, GradientsReady K it := by
  cases call with
  | create grid functions =>
    rcases luaCreateInterpolator_cases K s grid functions with ⟨it, hready, _, hst⟩ | ⟨_, hst⟩
    · refine ⟨[it], by simp [step, hst], by simp, ?_⟩
      intro x hx
      rw [List.mem_singleton.mp hx]
      exact hready
    · exact ⟨[], by simp [step, hst], by simp, by simp⟩
  | interpolate arg1 arg2 arg3 =>
    exact ⟨[], by simp [step, luaInterpolate_state], by simp, by simp⟩

/-- A sequence of calls only appends to the registry, and what it appends is
ready. -/
theorem run_appends {I : Type} (K : InterpolatorClass I) (cs : List Call) :
    ∀ s : LunaState I, ∃ added : List I,
      (run K s cs).Interpolators = s.Interpolators ++ added ∧
      ∀ it ∈ added, GradientsReady K it := by
  induction cs with
  | nil => intro s; exact ⟨[], by simp [run], by simp⟩
  | cons call rest ih =>
    intro s
    obtain ⟨a1, h1, _, r1⟩ := step_appends K s call
    obtain ⟨a2, h2, r2⟩ := ih (step K s call)
    refine ⟨a1 ++ a2, ?_, ?_⟩
    · have : run K s (call :: rest) = run K (step K s call) rest := rfl
      rw [this, h2, h1, List.append_assoc]
    · intro it hit
      rcases List.mem_append.mp hit with h | h
      · exact r1 it h
      · exact r2 it h

/-- Once the loop has found an object, appending objects to the registry or
changing the rest of the state does not change what it finds. -/
theorem interpolateLoop_append {I : Type} (K : InterpolatorClass I) (s t : LunaState I)
    (interpolatorID : Int) (point : List ℚ) (closedRange : Bool) (its added : List I)
    (hfound : (interpolateLoop K s interpolatorID point closedRange its).calls ≠ []) :
    (interpolateLoop K t interpolatorID point closedRange (its ++ added)).results =
        (interpolateLoop K s interpolatorID point closedRange its).results ∧
      (interpolateLoop K t interpolatorID point closedRange (its ++ added)).calls =
        (interpolateLoop K s interpolatorID point closedRange its).calls := by
  induction its with
  | nil => simp [interpolateLoop] at hfound
  | cons it rest ih =>
    simp only [List.cons_append, interpolateLoop] at hfound ⊢
    by_cases hid : K.getID it = interpolatorID
    · simp [hid]
    · simp only [hid, if_false] at hfound ⊢
      exact ih hfound

/-- The entries of the result table, one per element of the vector. -/
theorem mem_resultTable (r : List ℚ) (k v : LuaScalar) :
    (k, v) ∈ resultTable r ↔
      ∃ i : Nat, ∃ hi : i < r.length,
        k = .number ((i + 1 : Nat) : ℚ) ∧ v = .number (r.get ⟨i, hi⟩) := by
  unfold resultTable
  simp only [List.mem_map, List.mem_range, Prod.mk.injEq]
  constructor
  · rintro ⟨i, hi, hk, hv⟩
    refine ⟨i, hi, hk.symm, ?_⟩
    rw [← hv, List.getD_eq_getElem _ _ hi]
    rfl
  · rintro ⟨i, hi, hk, hv⟩
    refine ⟨i, hi, hk.symm, ?_⟩
    rw [hv, List.getD_eq_getElem _ _ hi]
    rfl

theorem resultTable_length (r : List ℚ) : (resultTable r).length = r.length := by
  simp [resultTable]

theorem resultTable_keys_nodup (r : List ℚ) : ((resultTable r).map Prod.fst).Nodup := by
  unfold resultTable
  rw [List.map_map]
  refine List.Nodup.map ?_ (List.nodup_range _)
  intro a b hab
  simp only [Function.comp, LuaScalar.number.injEq] at hab
  have h : a + 1 = b + 1 := by exact_mod_cast hab
  omega

/-! ### How `loadLuaTable` fills the vector -/

theorem loadEntry_pos (values : List ℚ) (kv : LuaScalar × LuaScalar)
    (h : 0 < entryIndex kv) :
    loadEntry values kv = storeAt values (entryIndex kv - 1).toNat (entryValue kv) := by
  have h1 : 0 < doubleToInt (lua_tonumber (.scalar kv.1)) := h
  have hcond : ((values.length : Int) ≤ doubleToInt (lua_tonumber (.scalar kv.1)) - 1) ↔
      values.length ≤ (doubleToInt (lua_tonumber (.scalar kv.1)) - 1).toNat := by
    omega
  simp only [loadEntry, storeAt, entryIndex, entryValue, h1, if_true, hcond]

theorem loadEntry_nonpos (values : List ℚ) (kv : LuaScalar × LuaScalar)
    (h : ¬ 0 < entryIndex kv) : loadEntry values kv = values := by
  have h1 : ¬ 0 < doubleToInt (lua_tonumber (.scalar kv.1)) := h
  simp only [loadEntry, h1, if_false]

theorem storeAt_length (values : List ℚ) (m : Nat) (v : ℚ) :
    (storeAt values m v).length = max values.length (m + 1) := by
  unfold storeAt vectorResize
  split
  · simp only [List.length_set, List.length_append, List.length_take, List.length_replicate]
    omega
  · simp only [List.length_set]
    omega

theorem storeAt_get_self (values : List ℚ) (m : Nat) (v : ℚ) :
    (storeAt values m v)[m]? = some v := by
  have hlen := storeAt_length values m v
  unfold storeAt at hlen ⊢
  apply List.getElem?_set_self
  rw [List.length_set] at hlen
  omega

theorem storeAt_get_other (values : List ℚ) (m : Nat) (v : ℚ) (j : Nat) (x : ℚ)
    (hj : j ≠ m) (hx : values[j]? = some x) : (storeAt values m v)[j]? = some x := by
  obtain ⟨hlt, _⟩ := List.getElem?_eq_some.mp hx
  unfold storeAt vectorResize
  rw [List.getElem?_set_ne (Ne.symm hj)]
  split
  · next hle =>
    rw [List.take_of_length_le (by omega), List.getElem?_append_left hlt]
    exact hx
  · exact hx

/-- A slot survives the rest of the loop when no later key addresses it. -/
theorem foldl_loadEntry_preserves (t : LuaTable) :
    ∀ (values : List ℚ) (j : Nat) (x : ℚ), values[j]? = some x →
      (∀ kv ∈ t, entryIndex kv ≠ (j : Int) + 1) →
      (t.foldl loadEntry values)[j]? = some x := by
  induction t with
  | nil => intro values j x hx _; exact hx
  | cons kv rest ih =>
    intro values j x hx hne
    rw [List.foldl_cons]
    apply ih
    · by_cases hpos : 0 < entryIndex kv
      · rw [loadEntry_pos values kv hpos]
        apply storeAt_get_other _ _ _ _ _ _ hx
        have := hne kv (List.mem_cons_self _ _)
        omega
      · rw [loadEntry_nonpos values kv hpos]
        exact hx
    · exact fun kv2 h2 => hne kv2 (List.mem_cons_of_mem _ h2)

/-- With pairwise different indices, the slot of an entry with a positive
index ends up holding the value of that entry. -/
theorem foldl_loadEntry_get (t : LuaTable) :
    ∀ (values : List ℚ) (kv : LuaScalar × LuaScalar), (t.map entryIndex).Nodup →
      kv ∈ t → 0 < entryIndex kv →
      (t.foldl loadEntry values)[(entryIndex kv - 1).toNat]? = some (entryValue kv) := by
  induction t with
  | nil => intro values kv _ hmem; simp at hmem
  | cons a rest ih =>
    intro values kv hnodup hmem hpos
    rw [List.foldl_cons]
    rw [List.map_cons, List.nodup_cons] at hnodup
    rcases List.mem_cons.mp hmem with rfl | hrest
    · apply foldl_loadEntry_preserves
      · rw [loadEntry_pos values kv hpos]
        exact storeAt_get_self _ _ _
      · intro kv2 h2 heq
        apply hnodup.1
        have : entryIndex kv2 = entryIndex kv := by omega
        rw [← this]
        exact List.mem_map_of_mem _ h2
    · exact ih _ kv hnodup.2 hrest hpos

/-- The vector never grows beyond the largest index. -/
theorem foldl_loadEntry_length_le (n : Nat) (t : LuaTable) :
    ∀ (values : List ℚ), (∀ kv ∈ t, entryIndex kv ≤ (n : Int)) → values.length ≤ n →
      (t.foldl loadEntry values).length ≤ n := by
  induction t with
  | nil => intro values _ h; exact h
  | cons a rest ih =>
    intro values hall hlen
    rw [List.foldl_cons]
    apply ih _ (fun kv h => hall kv (List.mem_cons_of_mem _ h))
    by_cases hpos : 0 < entryIndex a
    · rw [loadEntry_pos values a hpos, storeAt_length]
      have := hall a (List.mem_cons_self _ _)
      omega
    · rw [loadEntry_nonpos values a hpos]
      exact hlen

/-- The indices of a table whose keys are exactly 1..n. -/
theorem entryIndex_of_keys (n : Nat) (t : LuaTable)
    (hkeys : (t.map Prod.fst).Perm
      ((List.range n).map fun (i : Nat) => LuaScalar.number ((i + 1 : Nat) : ℚ))) :
    (t.map entryIndex).Perm ((List.range n).map fun (i : Nat) => ((i + 1 : Nat) : Int)) := by
  have h := hkeys.map (fun key => doubleToInt (lua_tonumber (.scalar key)))
  simp only [List.map_map] at h
  have hl : (fun key => doubleToInt (lua_tonumber (.scalar key))) ∘ Prod.fst = entryIndex := by
    funext kv
    rfl
  have hr : ((fun key => doubleToInt (lua_tonumber (.scalar key))) ∘
      fun (i : Nat) => LuaScalar.number ((i + 1 : Nat) : ℚ)) =
      fun (i : Nat) => ((i + 1 : Nat) : Int) := by
    funext i
    simp only [Function.comp, lua_tonumber]
    exact doubleToInt_natCast (i + 1)
  rw [hl, hr] at h
  exact h

/-- When every group loads as a non-empty vector, the first loop of
`luaCreateInterpolator` runs to its end: the grid is the concatenation of the
groups and there is one delimiter per group, its length. -/
theorem loadGrid_of_nonempty (grid : List LuaTable)
    (hne : ∀ g ∈ grid, loadLuaTable g ≠ []) :
    ∀ (vs : List ℚ) (ds : List Nat),
      loadGrid grid vs ds =
        some (vs ++ (grid.map loadLuaTable).flatten,
          ds ++ grid.map fun g => (loadLuaTable g).length) := by
  induction grid with
  | nil => intro vs ds; simp [loadGrid]
  | cons g rest ih =>
    intro vs ds
    have hg : (loadLuaTable g).length ≠ 0 := by
      intro h0
      exact hne g (List.mem_cons_self _ _) (List.length_eq_zero.mp h0)
    simp only [loadGrid, hg, if_false]
    rw [ih (fun x hx => hne x (List.mem_cons_of_mem _ hx))]
    simp

/-! ### Handles of the class of the specification -/

theorem specAddFunction_ok (it it1 : SpecInterpolator) (values : List ℚ)
    (h : it.addFunction values = .ok it1) :
    values.length = it.cellCount ∧ it1 = { it with function := it.function ++ [values] } := by
  unfold SpecInterpolator.addFunction at h
  by_cases hlen : values.length = it.cellCount
  · rw [if_pos hlen] at h
    injection h with h
    exact ⟨hlen, h.symm⟩
  · rw [if_neg hlen] at h
    cases h

theorem specAddFunctionLoop_ID (ev : SpecInterpolator → List ℚ → Bool → List ℚ)
    (fs : List (List ℚ)) :
    ∀ it it1 : SpecInterpolator, addFunctionLoop (specClass ev) it fs = .ok it1 →
      it1.ID = it.ID := by
  induction fs with
  | nil =>
    intro it it1 h
    simp only [addFunctionLoop] at h
    injection h with h
    rw [h]
  | cons f rest ih =>
    intro it it1 h
    simp only [addFunctionLoop] at h
    rcases hadd : (specClass ev).addFunction it f with e | it2
    · rw [hadd] at h
      cases h
    · rw [hadd] at h
      rw [ih it2 it1 h, (specAddFunction_ok it it2 f hadd).2]

theorem specValidate_ID (it : SpecInterpolator) : (it.validate).2.ID = it.ID := by
  unfold SpecInterpolator.validate
  split <;> rfl

/-- With the class of the specification, a call of `luaCreateInterpolator`
either registers one object whose handle is the new construction count, or
registers nothing; the construction count never decreases. -/
theorem specClass_create_handle (ev : SpecInterpolator → List ℚ → Bool → List ℚ)
    (s : LunaState SpecInterpolator) (grid functions : List LuaTable) :
    (∃ it : SpecInterpolator, it.ID = (s.constructed : Int) + 1 ∧
      (luaCreateInterpolator (specClass ev) s grid functions).state =
        { Interpolators := s.Interpolators ++ [it], constructed := s.constructed + 1 }) ∨
    ((luaCreateInterpolator (specClass ev) s grid functions).state.Interpolators =
        s.Interpolators ∧
      s.constructed ≤ (luaCreateInterpolator (specClass ev) s grid functions).state.constructed) := by
  rcases hgrid : loadGrid grid [] [] with _ | ⟨gridValues, gridDelimiters⟩
  · right
    simp [luaCreateInterpolator, hgrid]
  · rw [luaCreateInterpolator_eq _ s grid functions gridValues gridDelimiters hgrid]
    by_cases hn : 1 ≤ grid.length ∧ grid.length ≤ 5
    · rw [if_pos hn]
      rcases hloop : addFunctionLoop (specClass ev)
          ((specClass ev).setGridDelimiters ((specClass ev).setGrid
            ((specClass ev).construct grid.length s.constructed) gridValues)
            gridDelimiters) (functions.map loadLuaTable) with e | obj
      · rw [createCase_error _ s _ _ _ _ e hloop]
        right
        exact ⟨rfl, Nat.le_succ _⟩
      · rw [createCase_ok _ s _ _ _ _ obj hloop]
        split
        · left
          refine ⟨_, ?_, rfl⟩
          show (SpecInterpolator.calculateGradients (SpecInterpolator.validate _).2).ID = _
          unfold SpecInterpolator.calculateGradients
          simp only [specValidate_ID]
          rw [specAddFunctionLoop_ID ev _ _ _ hloop]
          rfl
        · right
          exact ⟨rfl, Nat.le_succ _⟩
    · rw [if_neg hn]
      right
      exact ⟨rfl, Nat.le_refl _⟩

/-- With the class of the specification, in every state reached from the
initial one the registered handles are pairwise different and lie between 1
and the construction count. -/
theorem specClass_handles_distinct (ev : SpecInterpolator → List ℚ → Bool → List ℚ)
    (cs : List Call) :
    ∀ s : LunaState SpecInterpolator,
      (s.Interpolators.map fun it => it.ID).Nodup →
      (∀ it ∈ s.Interpolators, it.ID ≤ (s.constructed : Int)) →
      ((run (specClass ev) s cs).Interpolators.map fun it => it.ID).Nodup ∧
      ∀ it ∈ (run (specClass ev) s cs).Interpolators,
        it.ID ≤ ((run (specClass ev) s cs).constructed : Int) := by
  induction cs with
  | nil => intro s h1 h2; exact ⟨h1, h2⟩
  | cons call rest ih =>
    intro s h1 h2
    have hrun : run (specClass ev) s (call :: rest) =
        run (specClass ev) (step (specClass ev) s call) rest := rfl
    rw [hrun]
    apply ih
    · cases call with
      | create grid functions =>
        rcases specClass_create_handle ev s grid functions with ⟨it, hid, hst⟩ | ⟨hst, _⟩
        · simp only [step, hst, List.map_append, List.map_cons, List.map_nil]
          rw [List.nodup_append]
          refine ⟨h1, by simp, ?_⟩
          intro a ha hb
          rw [List.mem_singleton] at hb
          obtain ⟨x, hx, hxa⟩ := List.mem_map.mp ha
          have := h2 x hx
          omega
        · simp only [step, hst]
          exact h1
      | interpolate a1 a2 a3 =>
        simp only [step, luaInterpolate_state]
        exact h1
    · cases call with
      | create grid functions =>
        rcases specClass_create_handle ev s grid functions with ⟨it, hid, hst⟩ | ⟨hst, hc⟩
        · simp only [step, hst]
          intro x hx
          rcases List.mem_append.mp hx with h | h
          · have := h2 x h
            push_cast
            omega
          · rw [List.mem_singleton.mp h, hid]
            push_cast
            omega
        · simp only [step, hst]
          intro x hx
          have := h2 x hx
          omega
      | interpolate a1 a2 a3 =>
        simp only [step, luaInterpolate_state]
        exact h2

/-! ### The loop over the function arrays -/

/-- The loop ends at the first call of `addFunction` that fails, whatever
follows. -/
theorem addFunctionLoop_first_error {I : Type} (K : InterpolatorClass I)
    (f : List ℚ) (post : List (List ℚ)) (e : InterpolatorError) (pre : List (List ℚ)) :
    ∀ obj obj1 : I, addFunctionLoop K obj pre = .ok obj1 → K.addFunction obj1 f = .error e →
      addFunctionLoop K obj (pre ++ f :: post) = .error e := by
  induction pre with
  | nil =>
    intro obj obj1 hpre hf
    simp only [addFunctionLoop] at hpre
    injection hpre with hpre
    simp only [List.nil_append, addFunctionLoop, hpre, hf]
  | cons p rest ih =>
    intro obj obj1 hpre hf
    simp only [List.cons_append, addFunctionLoop] at hpre ⊢
    rcases hadd : K.addFunction obj p with e2 | obj2
    · rw [hadd] at hpre
      cases hpre
    · rw [hadd] at hpre
      exact ih obj2 obj1 hpre hf

/-- With the class of the specification, arrays that all have one sample per
grid cell are all added, in order. -/
theorem specAddFunctionLoop_matching (ev : SpecInterpolator → List ℚ → Bool → List ℚ)
    (pre : List (List ℚ)) :
    ∀ obj : SpecInterpolator, (∀ p ∈ pre, p.length = obj.cellCount) →
      addFunctionLoop (specClass ev) obj pre =
        .ok { obj with function := obj.function ++ pre } := by
  induction pre with
  | nil => intro obj _; simp [addFunctionLoop]
  | cons p rest ih =>
    intro obj hall
    have hp : p.length = obj.cellCount := hall p (List.mem_cons_self _ _)
    have hadd : (specClass ev).addFunction obj p =
        .ok { obj with function := obj.function ++ [p] } := by
      show SpecInterpolator.addFunction obj p = _
      unfold SpecInterpolator.addFunction
      rw [if_pos hp]
    simp only [addFunctionLoop, hadd]
    have hrest := ih { obj with function := obj.function ++ [p] }
      (fun q hq => hall q (List.mem_cons_of_mem _ hq))
    rw [hrest]
    simp

/-- A list with a mismatched array splits at the first such array. -/
theorem exists_first_mismatch (cells : Nat) (functions : List LuaTable)
    (hmis : ∃ f ∈ functions, (loadLuaTable f).length ≠ cells) :
    ∃ (pre : List LuaTable) (f : LuaTable) (post : List LuaTable),
      functions = pre ++ f :: post ∧ (∀ p ∈ pre, (loadLuaTable p).length = cells) ∧
      (loadLuaTable f).length ≠ cells := by
  induction functions with
  | nil => simp at hmis
  | cons a rest ih =>
    by_cases ha : (loadLuaTable a).length = cells
    · have hrest : ∃ f ∈ rest, (loadLuaTable f).length ≠ cells := by
        obtain ⟨f, hf, hne⟩ := hmis
        rcases List.mem_cons.mp hf with rfl | hmem
        · exact absurd ha hne
        · exact ⟨f, hmem, hne⟩
      obtain ⟨pre, f, post, hsplit, hpre, hf⟩ := ih hrest
      refine ⟨a :: pre, f, post, by simp [hsplit], ?_, hf⟩
      intro p hp
      rcases List.mem_cons.mp hp with rfl | hmem
      · exact ha
      · exact hpre p hmem
    · exact ⟨[], a, rest, rfl, by simp, ha⟩

theorem gridObject_cellCount (s : LunaState SpecInterpolator) (grid : List LuaTable) :
    (gridObject s grid).cellCount = gridCells grid := rfl

/-! ## The claims -/

/-- C1: `createInterpolator` is all-or-nothing.  For every registry state and
every input, either the call returns a handle and the registry afterwards is
the old registry with exactly one new instance appended, whose ID is the
returned handle, or the call returns nothing (no handle) and the registry is
unchanged. -/
theorem createInterpolator_all_or_nothing {I : Type} (K : InterpolatorClass I)
    (s : LunaState I) (grid functions : List LuaTable) :
    (∃ it : I,
        (luaCreateInterpolator K s grid functions).results =
          [.scalar (.number (K.getID it))] ∧
        (luaCreateInterpolator K s grid functions).state.Interpolators =
          s.Interpolators ++ [it]) ∨
    ((luaCreateInterpolator K s grid functions).results = [] ∧
      (luaCreateInterpolator K s grid functions).state.Interpolators = s.Interpolators) := by
  rcases luaCreateInterpolator_cases K s grid functions with ⟨it, _, hres, hst⟩ | h
  · left
    exact ⟨it, hres, by rw [hst]⟩
  · right
    exact h

/-- C4: for every registry state, point and third argument, if no registered
instance has an ID equal to the given (integer) handle, then `interpolate`
returns the failure value nil (NotFound), calls no evaluator and leaves the
module state, registry included, unchanged. -/
theorem interpolate_unknown_handle {I : Type} (K : InterpolatorClass I) (s : LunaState I)
    (handle : Int) (point : LuaValue) (arg3 : Option LuaValue)
    (hunknown : ∀ it ∈ s.Interpolators, K.getID it ≠ handle) :
    luaInterpolate K s (.scalar (.number (handle : ℚ))) point arg3 =
      ⟨[.scalar .nil], [], s⟩ := by
  unfold luaInterpolate
  split
  · rfl
  · simp only [lua_tonumber, doubleToInt_intCast]
    exact interpolateLoop_not_found K s handle _ _ _ hunknown

theorem interpolate_unknown_handle_witness :
    (∀ it ∈ exampleState.Interpolators, exampleClass.getID it ≠ 7) ∧
      luaInterpolate exampleClass exampleState (.scalar (.number ((7 : Int) : ℚ)))
        (.table (luaSequence [1, 5])) (some (.scalar (.boolean true))) =
        ⟨[.scalar .nil], [], exampleState⟩ :=
  ⟨by decide,
    interpolate_unknown_handle exampleClass exampleState 7 (.table (luaSequence [1, 5]))
      (some (.scalar (.boolean true))) (by decide)⟩

/-- C7: state-machine invariant.  In every state reached from the initial one
by calls of `createInterpolator` and `interpolate`, every registered instance
is ready: it is what `calculateGradients()` left of an object that had passed
`validate()`.  Hence every evaluator call that `interpolate` makes in such a
state is on a ready instance, never on one that is still being constructed or
only validated. -/
theorem registered_instances_ready {I : Type} (K : InterpolatorClass I) (cs : List Call) :
    (∀ it ∈ (run K LunaState.initial cs).Interpolators, GradientsReady K it) ∧
    (∀ (arg1 arg2 : LuaValue) (arg3 : Option LuaValue),
      ∀ c ∈ (luaInterpolate K (run K LunaState.initial cs) arg1 arg2 arg3).calls,
        GradientsReady K c.receiver) := by
  have hall : ∀ it ∈ (run K LunaState.initial cs).Interpolators, GradientsReady K it := by
    obtain ⟨added, hrun, hready⟩ := run_appends K cs (LunaState.initial : LunaState I)
    intro it hit
    rw [hrun] at hit
    simp only [LunaState.initial, List.nil_append] at hit
    exact hready it hit
  exact ⟨hall, fun arg1 arg2 arg3 c hc =>
    hall _ (luaInterpolate_calls_mem K _ arg1 arg2 arg3 c hc)⟩

theorem registered_instances_ready_witness :
    exampleB ∈ (run exampleClass LunaState.initial
        [.create [luaSequence [0, 1]] [luaSequence [4, 5]],
         .create [luaSequence [0, 1, 2], luaSequence [0, 10]]
           [luaSequence [0, 10, 1, 11, 2, 12]]]).Interpolators ∧
      GradientsReady exampleClass exampleB :=
  ⟨by decide,
    (registered_instances_ready exampleClass
      [.create [luaSequence [0, 1]] [luaSequence [4, 5]],
       .create [luaSequence [0, 1, 2], luaSequence [0, 10]]
         [luaSequence [0, 10, 1, 11, 2, 12]]]).1 exampleB (by decide)⟩

/-- C8: for every registered handle, `interpolate` calls the evaluator of the
instance `X` it resolves to once, and with `r` the vector the evaluator returns
it hands back one table that holds exactly one entry per element of `r`: the
key `i + 1` holds `r[i]` for every `0 <= i < len(r)`, there is no other entry
and no key occurs twice. -/
theorem interpolate_results_in_order {I : Type} (K : InterpolatorClass I) (s : LunaState I)
    (handle : Int) (point : LuaTable) (arg3 : Option LuaValue)
    (hreg : ∃ it ∈ s.Interpolators, K.getID it = handle) :
    ∃ X ∈ s.Interpolators, K.getID X = handle ∧
      (luaInterpolate K s (.scalar (.number (handle : ℚ))) (.table point) arg3).calls =
        [⟨X, loadLuaTable point, closedRangeFlag arg3⟩] ∧
      ∃ t : LuaTable,
        (luaInterpolate K s (.scalar (.number (handle : ℚ))) (.table point) arg3).results =
          [.table t] ∧
        t.length = (K.interpolate X (loadLuaTable point) (closedRangeFlag arg3)).length ∧
        (t.map Prod.fst).Nodup ∧
        ∀ k v : LuaScalar, (k, v) ∈ t ↔
          ∃ i : Nat, ∃ hi : i <
              (K.interpolate X (loadLuaTable point) (closedRangeFlag arg3)).length,
            k = .number ((i + 1 : Nat) : ℚ) ∧
            v = .number ((K.interpolate X (loadLuaTable point)
              (closedRangeFlag arg3)).get ⟨i, hi⟩) := by
  obtain ⟨before, X, after, hsplit, hbefore, hX⟩ :=
    exists_first_with_ID K handle s.Interpolators hreg
  have hrun : luaInterpolate K s (.scalar (.number (handle : ℚ))) (.table point) arg3 =
      ⟨[.table (resultTable (K.interpolate X (loadLuaTable point) (closedRangeFlag arg3)))],
        [⟨X, loadLuaTable point, closedRangeFlag arg3⟩], s⟩ := by
    unfold luaInterpolate
    simp only [lua_isnumber, lua_istable, Bool.not_true, Bool.or_self, Bool.false_eq_true,
      if_false, lua_tonumber, doubleToInt_intCast, tableEntries]
    rw [hsplit]
    exact interpolateLoop_found K s _ _ _ before X after hbefore hX
  refine ⟨X, by rw [hsplit]; simp, hX, by rw [hrun], _, by rw [hrun], ?_, ?_, ?_⟩
  · exact resultTable_length _
  · exact resultTable_keys_nodup _
  · exact mem_resultTable _

theorem interpolate_results_in_order_witness :
    (∃ it ∈ exampleState.Interpolators, exampleClass.getID it = 2) ∧
    ∃ X ∈ exampleState.Interpolators, exampleClass.getID X = 2 ∧
      (luaInterpolate exampleClass exampleState (.scalar (.number ((2 : Int) : ℚ)))
          (.table (luaSequence [1, 5])) none).calls =
        [⟨X, loadLuaTable (luaSequence [1, 5]), closedRangeFlag none⟩] ∧
      ∃ t : LuaTable,
        (luaInterpolate exampleClass exampleState (.scalar (.number ((2 : Int) : ℚ)))
            (.table (luaSequence [1, 5])) none).results = [.table t] ∧
        t.length = (exampleClass.interpolate X (loadLuaTable (luaSequence [1, 5]))
          (closedRangeFlag none)).length ∧
        (t.map Prod.fst).Nodup ∧
        ∀ k v : LuaScalar, (k, v) ∈ t ↔
          ∃ i : Nat, ∃ hi : i <
              (exampleClass.interpolate X (loadLuaTable (luaSequence [1, 5]))
                (closedRangeFlag none)).length,
            k = .number ((i + 1 : Nat) : ℚ) ∧
            v = .number ((exampleClass.interpolate X (loadLuaTable (luaSequence [1, 5]))
              (closedRangeFlag none)).get ⟨i, hi⟩) :=
  ⟨⟨exampleB, by decide, by decide⟩,
    interpolate_results_in_order exampleClass exampleState 2 (luaSequence [1, 5]) none
      ⟨exampleB, by decide, by decide⟩⟩

/-- C10: registry persistence.  Over every sequence of `createInterpolator`
and `interpolate` calls (no teardown in between) the registry only grows at its
end: the old entries stay, in place and in order.  A handle that resolved to an
instance before the calls resolves to the same instance after them, with the
same answer.  A single `interpolate` leaves the state unchanged, and a single
`createInterpolator` appends at most one entry. -/
theorem registry_persistence {I : Type} (K : InterpolatorClass I) (s : LunaState I)
    (cs : List Call) :
    (∃ added : List I, (run K s cs).Interpolators = s.Interpolators ++ added) ∧
    (∀ (arg1 arg2 : LuaValue) (arg3 : Option LuaValue),
      (luaInterpolate K s arg1 arg2 arg3).calls ≠ [] →
        (luaInterpolate K (run K s cs) arg1 arg2 arg3).results =
            (luaInterpolate K s arg1 arg2 arg3).results ∧
          (luaInterpolate K (run K s cs) arg1 arg2 arg3).calls =
            (luaInterpolate K s arg1 arg2 arg3).calls) ∧
    (∀ (arg1 arg2 : LuaValue) (arg3 : Option LuaValue),
      (luaInterpolate K s arg1 arg2 arg3).state = s) ∧
    (∀ grid functions : List LuaTable, ∃ added : List I,
      (luaCreateInterpolator K s grid functions).state.Interpolators =
        s.Interpolators ++ added ∧ added.length ≤ 1) := by
  obtain ⟨added, hrun, _⟩ := run_appends K cs s
  refine ⟨⟨added, hrun⟩, ?_, fun arg1 arg2 arg3 => luaInterpolate_state K s arg1 arg2 arg3, ?_⟩
  · intro arg1 arg2 arg3 hfound
    unfold luaInterpolate at hfound ⊢
    by_cases hguard : (!(lua_isnumber arg1) || !(lua_istable arg2)) = true
    · simp [hguard] at hfound
    · simp only [hguard, if_false] at hfound ⊢
      rw [hrun]
      exact interpolateLoop_append K s (run K s cs) _ _ _ _ added hfound
  · intro grid functions
    obtain ⟨a, ha, hlen, _⟩ := step_appends K s (.create grid functions)
    exact ⟨a, ha, hlen⟩

theorem registry_persistence_witness :
    (luaInterpolate exampleClass exampleCreate1.state (.scalar (.number 1))
        (.table (luaSequence [1])) none).calls ≠ [] ∧
      (luaInterpolate exampleClass exampleState (.scalar (.number 1))
          (.table (luaSequence [1])) none).results =
        (luaInterpolate exampleClass exampleCreate1.state (.scalar (.number 1))
          (.table (luaSequence [1])) none).results :=
  ⟨by decide,
    ((registry_persistence exampleClass exampleCreate1.state
      [.create [luaSequence [0, 1, 2], luaSequence [0, 10]]
        [luaSequence [0, 10, 1, 11, 2, 12]]]).2.1 (.scalar (.number 1))
      (.table (luaSequence [1])) none (by decide)).1⟩

/-- C9: index normalisation.  For every table whose keys are exactly the
integers 1..n (each once, `n >= 0`), visited in any order, `loadLuaTable`
returns a vector of length n whose 0-based element `k - 1` is the value stored
at the 1-based key `k`, as `lua_tonumber` reads it, for every `1 <= k <= n`;
for a number that is the number itself. -/
theorem loadLuaTable_index_normalisation (n : Nat) (t : LuaTable)
    (hkeys : (t.map Prod.fst).Perm
      ((List.range n).map fun (i : Nat) => LuaScalar.number ((i + 1 : Nat) : ℚ))) :
    (loadLuaTable t).length = n ∧
    (∀ (k : Nat) (v : LuaScalar), 1 ≤ k → k ≤ n → (LuaScalar.number (k : ℚ), v) ∈ t →
      (loadLuaTable t)[k - 1]? = some (lua_tonumber (.scalar v))) ∧
    (∀ (k : Nat) (x : ℚ), 1 ≤ k → k ≤ n → (LuaScalar.number (k : ℚ), LuaScalar.number x) ∈ t →
      (loadLuaTable t)[k - 1]? = some x) := by
  have hperm := entryIndex_of_keys n t hkeys
  have hnodup : (t.map entryIndex).Nodup := by
    rw [hperm.nodup_iff]
    refine List.Nodup.map ?_ (List.nodup_range n)
    intro a b hab
    simp only at hab
    omega
  have hget : ∀ (k : Nat) (v : LuaScalar), 1 ≤ k → (LuaScalar.number (k : ℚ), v) ∈ t →
      (loadLuaTable t)[k - 1]? = some (lua_tonumber (.scalar v)) := by
    intro k v hk hmem
    have hidx : entryIndex (LuaScalar.number (k : ℚ), v) = (k : Int) := doubleToInt_natCast k
    have h := foldl_loadEntry_get t [] _ hnodup hmem (by rw [hidx]; omega)
    rw [hidx] at h
    have hk1 : ((k : Int) - 1).toNat = k - 1 := by omega
    rw [hk1] at h
    exact h
  refine ⟨?_, fun k v hk _ hmem => hget k v hk hmem, fun k x hk _ hmem => hget k _ hk hmem⟩
  apply Nat.le_antisymm
  · apply foldl_loadEntry_length_le n t []
    · intro kv hkv
      have hm : entryIndex kv ∈ t.map entryIndex := List.mem_map_of_mem _ hkv
      rw [hperm.mem_iff] at hm
      simp only [List.mem_map, List.mem_range] at hm
      obtain ⟨i, hi, heq⟩ := hm
      omega
    · simp
  · rcases Nat.eq_zero_or_pos n with h0 | hpos
    · omega
    · have hm : ((n : Nat) : Int) ∈ t.map entryIndex := by
        rw [hperm.mem_iff]
        simp only [List.mem_map, List.mem_range]
        exact ⟨n - 1, by omega, by omega⟩
      obtain ⟨kv, hkv, hidx⟩ := List.mem_map.mp hm
      have h := foldl_loadEntry_get t [] kv hnodup hkv (by rw [hidx]; omega)
      obtain ⟨hlt, _⟩ := List.getElem?_eq_some.mp h
      rw [hidx] at hlt
      have : (loadLuaTable t).length = (t.foldl loadEntry []).length := rfl
      omega

theorem loadLuaTable_index_normalisation_witness :
    ([(LuaScalar.number 3, LuaScalar.number 30), (LuaScalar.number 1, LuaScalar.number 10),
        (LuaScalar.number 2, LuaScalar.number 20)].map Prod.fst).Perm
      ((List.range 3).map fun (i : Nat) => LuaScalar.number ((i + 1 : Nat) : ℚ)) ∧
    (loadLuaTable [(LuaScalar.number 3, LuaScalar.number 30),
      (LuaScalar.number 1, LuaScalar.number 10),
      (LuaScalar.number 2, LuaScalar.number 20)]).length = 3 :=
  ⟨by decide,
    (loadLuaTable_index_normalisation 3
      [(LuaScalar.number 3, LuaScalar.number 30), (LuaScalar.number 1, LuaScalar.number 10),
        (LuaScalar.number 2, LuaScalar.number 20)] (by decide)).1⟩

/-- C2: with the interpolator class of the specification, for every input
with 1 to 5 non-empty dimension groups in which some function array has a
length other than the product of the dimension sizes, `createInterpolator`
aborts at the first such array: the arrays before it are added in order, the
call of `addFunction` on it fails with DimensionMismatchError, and that error
ends the construction.  No handle is returned to Lua and nothing is
registered; the registry is the one before the call. -/
theorem createInterpolator_dimension_mismatch
    (ev : SpecInterpolator → List ℚ → Bool → List ℚ) (s : LunaState SpecInterpolator)
    (grid functions : List LuaTable)
    (hcount : 1 ≤ grid.length ∧ grid.length ≤ 5)
    (hne : ∀ g ∈ grid, loadLuaTable g ≠ [])
    (hmis : ∃ f ∈ functions, (loadLuaTable f).length ≠ gridCells grid) :
    luaCreateInterpolator (specClass ev) s grid functions =
      ⟨[], some .DimensionMismatchError,
        { Interpolators := s.Interpolators, constructed := s.constructed + 1 }⟩ ∧
    ∃ (pre : List LuaTable) (f : LuaTable) (post : List LuaTable),
      functions = pre ++ f :: post ∧
      (∀ p ∈ pre, (loadLuaTable p).length = gridCells grid) ∧
      (loadLuaTable f).length ≠ gridCells grid ∧
      addFunctionLoop (specClass ev) (gridObject s grid) (pre.map loadLuaTable) =
        .ok { gridObject s grid with function := pre.map loadLuaTable } ∧
      (specClass ev).addFunction { gridObject s grid with function := pre.map loadLuaTable }
        (loadLuaTable f) = .error .DimensionMismatchError := by
  obtain ⟨pre, f, post, hsplit, hpre, hf⟩ := exists_first_mismatch (gridCells grid) functions hmis
  have hloop : addFunctionLoop (specClass ev) (gridObject s grid) (pre.map loadLuaTable) =
      .ok { gridObject s grid with function := pre.map loadLuaTable } := by
    have h := specAddFunctionLoop_matching ev (pre.map loadLuaTable) (gridObject s grid)
      (by
        intro p hp
        obtain ⟨q, hq, rfl⟩ := List.mem_map.mp hp
        rw [gridObject_cellCount]
        exact hpre q hq)
    rw [h]
    rfl
  have hadd : (specClass ev).addFunction
      { gridObject s grid with function := pre.map loadLuaTable } (loadLuaTable f) =
      .error .DimensionMismatchError := by
    show SpecInterpolator.addFunction _ _ = _
    unfold SpecInterpolator.addFunction
    rw [if_neg]
    exact hf
  refine ⟨?_, pre, f, post, hsplit, hpre, hf, hloop, hadd⟩
  have hgrid := loadGrid_of_nonempty grid hne [] []
  simp only [List.nil_append] at hgrid
  rw [luaCreateInterpolator_eq _ s grid functions _ _ hgrid, if_pos hcount]
  apply createCase_error
  rw [hsplit, List.map_append, List.map_cons]
  exact addFunctionLoop_first_error (specClass ev) _ _ _ _ _ _ hloop hadd

theorem createInterpolator_dimension_mismatch_witness :
    (1 ≤ [luaSequence [0, 1]].length ∧ [luaSequence [0, 1]].length ≤ 5) ∧
    (∀ g ∈ [luaSequence [0, 1]], loadLuaTable g ≠ []) ∧
    (∃ f ∈ [luaSequence [1, 2, 3], luaSequence [4, 5]],
      (loadLuaTable f).length ≠ gridCells [luaSequence [0, 1]]) ∧
    luaCreateInterpolator (specClass cornerEvaluator) exampleState [luaSequence [0, 1]]
        [luaSequence [1, 2, 3], luaSequence [4, 5]] =
      ⟨[], some .DimensionMismatchError,
        { Interpolators := exampleState.Interpolators,
          constructed := exampleState.constructed + 1 }⟩ :=
  ⟨by decide, by decide, by decide,
    (createInterpolator_dimension_mismatch cornerEvaluator exampleState [luaSequence [0, 1]]
      [luaSequence [1, 2, 3], luaSequence [4, 5]] (by decide) (by decide) (by decide)).1⟩

/-- C6: the flag that reaches the evaluator is `(bool)lua_tonumber(L, 3)`.  It
is false when the third argument is omitted and false when it is the boolean
false, but it is also false when it is the boolean true, because
`lua_tonumber` reads every boolean as 0; only a non-zero number gives true.
On the registered handle 2 the call with the third argument `true` invokes the
evaluator with `closedRange = false`. -/
theorem closedRange_boolean_true_reads_false :
    closedRangeFlag none = false ∧
    closedRangeFlag (some (.scalar (.boolean false))) = false ∧
    closedRangeFlag (some (.scalar (.boolean true))) = false ∧
    closedRangeFlag (some (.scalar (.number 1))) = true ∧
    (luaInterpolate exampleClass exampleState (.scalar (.number 2))
        (.table (luaSequence [1, 5])) (some (.scalar (.boolean true)))).calls =
      [⟨exampleB, [1, 5], false⟩] := by
  decide

end Sasl
